import Mathlib

/-!
Shallow embedding of the book-inventory application (src/app.py): catalog
index construction, exact and fuzzy inventory resolution (a faithful model
of difflib.SequenceMatcher / get_close_matches), cover fetching over parsed
JSON responses, suggestion parsing, and the parallel aggregator.

Modelling conventions: Python strings are lists of characters, Python dicts
are insertion-ordered association lists (later writes overwrite the value in
place), Python floats are exact rationals, and raised exceptions are the
error side of Except.  Python str.lower is modelled on the ASCII range (the
only range the catalog uses).  The quick_ratio / real_quick_ratio
short-circuit tests of get_close_matches are provable upper bounds of
ratio, so the set of accepted candidates is exactly the ratio filter and
they are omitted.
-/

namespace BookApp

/-- Python strings, modelled as lists of characters. -/
abbrev PyStr := List Char

/-- Python exceptions that the embedded code can raise. -/
inductive PyExc where
  | requestException
  | keyError
  | indexError
  | typeError
  | attributeError
  | valueError
deriving DecidableEq, Repr

/-- Characters Python str.strip() removes (str.isspace on the ASCII range). -/
def pyIsSpace (c : Char) : Bool :=
  c == ' ' || c == '\t' || c == '\n' || c == '\r' || c == '\x0b' || c == '\x0c'

/-- Drop trailing characters satisfying p. -/
def dropTrail (p : Char → Bool) (s : PyStr) : PyStr :=
  (s.reverse.dropWhile p).reverse

/-- Python s.strip(): remove leading and trailing whitespace. -/
def pyStrip (s : PyStr) : PyStr :=
  dropTrail pyIsSpace (s.dropWhile pyIsSpace)

/-- Python s.strip(chars): remove leading and trailing characters drawn from cs. -/
def pyStripSet (s : PyStr) (cs : PyStr) : PyStr :=
  dropTrail (fun c => cs.contains c) (s.dropWhile (fun c => cs.contains c))

/-- Python s.lower(), on the ASCII range. -/
def pyLower (s : PyStr) : PyStr :=
  s.map Char.toLower

/-- Normalisation used by the index and the resolver: lower().strip(). -/
def normalize (s : PyStr) : PyStr :=
  pyStrip (pyLower s)

/-- A record of the catalog file books.json. -/
structure CatalogEntry where
  title : PyStr
  author : PyStr
  available : PyStr
deriving DecidableEq, Repr

/-- The CatalogIndex: a Python dict from normalised (title, author) to
availability, modelled as an insertion-ordered association list. -/
abbrev Lookup := List ((PyStr × PyStr) × PyStr)

/-- Python dict write d[k] = v: overwrite in place if the key is present,
otherwise append at the end (dicts preserve insertion order). -/
def dictInsert (d : Lookup) (k : PyStr × PyStr) (v : PyStr) : Lookup :=
  if d.any (fun p => p.1 == k) then
    d.map (fun p => if p.1 == k then (k, v) else p)
  else
    d ++ [(k, v)]

/-- Python k in d / d[k] on the index dict. -/
def dictGet? (d : Lookup) (k : PyStr × PyStr) : Option PyStr :=
  (d.find? (fun p => p.1 == k)).map (fun p => p.2)

/-- build_inventory_lookup (src/app.py lines 27-34): the dict comprehension
over the loaded inventory, keyed by (title.lower().strip(),
author.lower().strip()), value book["available"].  Later duplicates
silently overwrite earlier ones, as in a Python dict comprehension. -/
def buildInventoryLookup (inventory : List CatalogEntry) : Lookup :=
  inventory.foldl
    (fun d book => dictInsert d (normalize book.title, normalize book.author) book.available)
    []

/-- The all_titles list: titles of the index keys in iteration order
(src/app.py line 133). -/
def allTitles (d : Lookup) : List PyStr :=
  d.map (fun p => p.1.1)

/-! difflib.SequenceMatcher, specialised to isjunk = None, autojunk = True,
as called by get_close_matches: a is a candidate, b is the query word. -/

/-- Number of occurrences of a character in b. -/
def countOcc (c : Char) (b : PyStr) : Nat :=
  (b.filter (fun d => d == c)).length

/-- difflib autojunk: with len(b) >= 200, characters occurring more than
1 + len(b) / 100 times in b are popular and purged from the b2j index.
Popular characters are not junk: with isjunk = None the bjunk set stays
empty, so they are still matched by the extension loops. -/
def bpopular (b : PyStr) (c : Char) : Bool :=
  decide (200 ≤ b.length) && decide (b.length / 100 + 1 < countOcc c b)

/-- difflib b2j: ascending positions of c in b, empty for popular characters. -/
def b2jFun (b : PyStr) (c : Char) : List Nat :=
  if bpopular b c then []
  else (List.range b.length).filter (fun j => b.getD j ' ' == c)

/-- Python j2len.get(j, default) on the association-list model of j2len. -/
def lookupD (l : List (Nat × Nat)) (j : Nat) (d : Nat) : Nat :=
  match l.find? (fun p => p.1 == j) with
  | some p => p.2
  | none => d

/-- Running best matching block of find_longest_match. -/
structure FLM where
  besti : Nat
  bestj : Nat
  bestsize : Nat
deriving DecidableEq, Repr

/-- Inner loop body of find_longest_match: one j from b2j[a[i]], updating
the new j2len row and the running best (strict improvement only, so the
first maximal block in (i, j) order is kept). -/
def flmJStep (i : Nat) (old : List (Nat × Nat)) (st : FLM × List (Nat × Nat)) (j : Nat) :
    FLM × List (Nat × Nat) :=
  let k := (if j = 0 then 0 else lookupD old (j - 1) 0) + 1
  let row := (j, k) :: st.2
  if st.1.bestsize < k then (⟨i + 1 - k, j + 1 - k, k⟩, row) else (st.1, row)

/-- Outer loop body of find_longest_match: one value of i, with the
j-iteration restricted to blo <= j < bhi (the continue / break in the
Python source, equivalent to a filter because positions are ascending). -/
def flmIStep (a : PyStr) (b2j : Char → List Nat) (blo bhi : Nat)
    (st : FLM × List (Nat × Nat)) (i : Nat) : FLM × List (Nat × Nat) :=
  let js := (b2j (a.getD i ' ')).filter (fun j => decide (blo ≤ j) && decide (j < bhi))
  js.foldl (flmJStep i st.2) (st.1, [])

/-- Backward extension loops of find_longest_match: number of steps the
block extends to the left while the b-character satisfies ok and the
characters agree. -/
def backCount (a b : PyStr) (ok : Char → Bool) (alo blo : Nat) : Nat → Nat → Nat
  | 0, _ => 0
  | i + 1, j =>
    if alo < i + 1 ∧ blo < j ∧ ok (b.getD (j - 1) ' ') = true ∧
        a.getD i ' ' = b.getD (j - 1) ' ' then
      backCount a b ok alo blo i (j - 1) + 1
    else 0

/-- Forward extension loops of find_longest_match, with the exact loop
bound ahi - (i + s) as structural fuel: extend the size while the
b-character satisfies ok and the characters agree.  When the fuel is 0 the
condition i + s < ahi is false as well, so returning s is the loop's own
exit. -/
def fwdSizeAux (a b : PyStr) (ok : Char → Bool) (ahi bhi i j : Nat) : Nat → Nat → Nat
  | 0, s => s
  | fuel + 1, s =>
    if i + s < ahi ∧ j + s < bhi ∧ ok (b.getD (j + s) ' ') = true ∧
        a.getD (i + s) ' ' = b.getD (j + s) ' ' then
      fwdSizeAux a b ok ahi bhi i j fuel (s + 1)
    else s

/-- Final size after the forward extension loop starting from size s. -/
def fwdSize (a b : PyStr) (ok : Char → Bool) (ahi bhi i j : Nat) (s : Nat) : Nat :=
  fwdSizeAux a b ok ahi bhi i j (ahi - (i + s)) s

/-- difflib SequenceMatcher.find_longest_match on a[alo:ahi] x b[blo:bhi]:
the dynamic-programming sweep followed by the four extension loops
(non-junk backward, non-junk forward, junk backward, junk forward). -/
def findLongestMatch (a b : PyStr) (junk : Char → Bool) (b2j : Char → List Nat)
    (alo ahi blo bhi : Nat) : Nat × Nat × Nat :=
  let p1 := (List.range' alo (ahi - alo)).foldl (flmIStep a b2j blo bhi) (⟨alo, blo, 0⟩, [])
  let f := p1.1
  let nA := backCount a b (fun c => !(junk c)) alo blo f.besti f.bestj
  let i1 := f.besti - nA
  let j1 := f.bestj - nA
  let s1 := f.bestsize + nA
  let s2 := fwdSize a b (fun c => !(junk c)) ahi bhi i1 j1 s1
  let nC := backCount a b junk alo blo i1 j1
  let i2 := i1 - nC
  let j2 := j1 - nC
  let s3 := s2 + nC
  let s4 := fwdSize a b junk ahi bhi i2 j2 s3
  (i2, j2, s4)

/-- Total size of the matching blocks of get_matching_blocks: the recursive
split around each longest match.  The fuel argument dominates the recursion
depth (each split strictly shrinks the interval sum); the top-level call
passes len(a) + len(b) + 1 which always suffices. -/
def blocksSum (a b : PyStr) (junk : Char → Bool) (b2j : Char → List Nat) :
    Nat → Nat × Nat × Nat × Nat → Nat
  | 0, _ => 0
  | fuel + 1, (alo, ahi, blo, bhi) =>
    let m := findLongestMatch a b junk b2j alo ahi blo bhi
    let i := m.1
    let j := m.2.1
    let k := m.2.2
    if k = 0 then 0
    else
      k + (if alo < i ∧ blo < j then blocksSum a b junk b2j fuel (alo, i, blo, j) else 0)
        + (if i + k < ahi ∧ j + k < bhi then blocksSum a b junk b2j fuel (i + k, ahi, j + k, bhi)
           else 0)

/-- Total number of matching characters between a and b (sum of matching
block sizes).  With isjunk = None, as in get_close_matches, the bjunk set
of SequenceMatcher is empty — autojunk only purges popular characters from
b2j — so the junk predicate passed to the extension loops is constantly
false: the non-junk loops extend through every matching character, popular
ones included, and the junk loops never fire. -/
def seqMatches (a b : PyStr) : Nat :=
  blocksSum a b (fun _ => false) (b2jFun b) (a.length + b.length + 1)
    (0, a.length, 0, b.length)

/-- difflib SequenceMatcher.ratio: 2 * M / (len(a) + len(b)) as an exact
rational, and 1 when both are empty (difflib _calculate_ratio). -/
def ratio (a b : PyStr) : ℚ :=
  if a.length + b.length = 0 then 1
  else mkRat (2 * seqMatches a b) (a.length + b.length)

/-- Similarity of a candidate title x against the query word, in the
argument order used by get_close_matches (set_seq1(x), set_seq2(word)). -/
def scoreOf (word x : PyStr) : ℚ :=
  ratio x word

/-- Python string comparison x < y: lexicographic on code points. -/
def pyStrLtB : PyStr → PyStr → Bool
  | [], [] => false
  | [], _ :: _ => true
  | _ :: _, [] => false
  | x :: xs, y :: ys =>
    if x.toNat < y.toNat then true
    else if y.toNat < x.toNat then false
    else pyStrLtB xs ys

/-- Python max over the (score, string) pairs of get_close_matches: the new
element wins only when its pair is strictly greater, so the first maximal
pair is kept, and score ties go to the lexicographically larger string. -/
def scoreBetter (word x m : PyStr) : Bool :=
  decide (scoreOf word m < scoreOf word x) ||
    (decide (scoreOf word x = scoreOf word m) && pyStrLtB m x)

/-- One step of Python max over candidates. -/
def pickStep (word : PyStr) (acc : Option PyStr) (x : PyStr) : Option PyStr :=
  match acc with
  | none => some x
  | some m => if scoreBetter word x m then some x else some m

/-- Fold computing Python max of (score, candidate) pairs. -/
def pickBestFold (word : PyStr) (acc : Option PyStr) (l : List PyStr) : Option PyStr :=
  l.foldl (pickStep word) acc

/-- Candidates of get_close_matches: possibilities whose ratio against the
word reaches the cutoff. -/
def candFilter (word : PyStr) (poss : List PyStr) (cutoff : ℚ) : List PyStr :=
  poss.filter (fun x => decide (cutoff ≤ scoreOf word x))

/-- difflib get_close_matches with n = 1: validate the cutoff (ValueError
outside [0, 1]), filter by ratio, return the best candidate when any. -/
def getCloseMatches1 (word : PyStr) (poss : List PyStr) (cutoff : ℚ) :
    Except PyExc (Option PyStr) :=
  if 0 ≤ cutoff ∧ cutoff ≤ 1 then
    Except.ok (pickBestFold word none (candFilter word poss cutoff))
  else
    Except.error PyExc.valueError

/-- The sentinel returned when no match is found. -/
def notInInventory : PyStr := "Not in Inventory".data

/-- find_in_inventory (src/app.py lines 117-144): normalise, exact lookup,
else fuzzy title match via get_close_matches over all index titles, then
return the availability of the first index entry carrying the best title
(falling through to the sentinel when the loop finds none). -/
def findInInventory (d : Lookup) (title author : PyStr) (cutoff : ℚ) :
    Except PyExc PyStr :=
  match dictGet? d (normalize title, normalize author) with
  | some avail => Except.ok avail
  | none =>
    match getCloseMatches1 (normalize title) (allTitles d) cutoff with
    | Except.error e => Except.error e
    | Except.ok none => Except.ok notInInventory
    | Except.ok (some best) =>
      match d.find? (fun p => p.1.1 == best) with
      | some p => Except.ok p.2
      | none => Except.ok notInInventory

/-! JSON values and the Python dynamic operations get_book_cover performs
on a parsed response. -/

/-- Parsed JSON values.  Objects keep their (unique) keys in order; numbers
are modelled as integers (the response fields the code touches are strings
and containers). -/
inductive Json where
  | null
  | bool (b : Bool)
  | num (n : Int)
  | str (s : PyStr)
  | arr (xs : List Json)
  | obj (fields : List (PyStr × Json))

mutual

/-- Structural equality of JSON values (Python ==). -/
def jsonBeq : Json → Json → Bool
  | .null, .null => true
  | .bool a, .bool b => a == b
  | .num a, .num b => a == b
  | .str a, .str b => a == b
  | .arr xs, .arr ys => jsonBeqList xs ys
  | .obj fs, .obj gs => jsonBeqFields fs gs
  | _, _ => false

def jsonBeqList : List Json → List Json → Bool
  | [], [] => true
  | x :: xs, y :: ys => jsonBeq x y && jsonBeqList xs ys
  | _, _ => false

def jsonBeqFields : List (PyStr × Json) → List (PyStr × Json) → Bool
  | [], [] => true
  | (k, v) :: fs, (l, w) :: gs => k == l && jsonBeq v w && jsonBeqFields fs gs
  | _, _ => false

end

instance : BEq Json := ⟨jsonBeq⟩

/-- Python truthiness of a JSON value. -/
def truthy : Json → Bool
  | .null => false
  | .bool b => b
  | .num n => decide (n ≠ 0)
  | .str s => !s.isEmpty
  | .arr xs => !xs.isEmpty
  | .obj fs => !fs.isEmpty

/-- Lookup of a key in a JSON object's fields. -/
def jsonGet? (fs : List (PyStr × Json)) (k : PyStr) : Option Json :=
  (fs.find? (fun p => p.1 == k)).map (fun p => p.2)

/-- Does s start with pat. -/
def startsWithB : PyStr → PyStr → Bool
  | _, [] => true
  | [], _ :: _ => false
  | c :: cs, d :: ds => c == d && startsWithB cs ds

/-- Does pat occur in s (Python substring containment). -/
def substringB : PyStr → PyStr → Bool
  | s, pat =>
    if startsWithB s pat then true
    else
      match s with
      | [] => false
      | _ :: rest => substringB rest pat

/-- Python k in data: key test on dicts, membership on lists, substring on
strings, TypeError on anything else. -/
def pyContains (data : Json) (k : PyStr) : Except PyExc Bool :=
  match data with
  | .obj fs => Except.ok (fs.any (fun p => p.1 == k))
  | .arr xs => Except.ok (xs.any (fun v => v == Json.str k))
  | .str s => Except.ok (substringB s k)
  | _ => Except.error PyExc.typeError

/-- Python data[k] with a string key: dict lookup (KeyError when absent),
TypeError on lists, strings and scalars. -/
def subscriptStr (data : Json) (k : PyStr) : Except PyExc Json :=
  match data with
  | .obj fs =>
    match jsonGet? fs k with
    | some v => Except.ok v
    | none => Except.error PyExc.keyError
  | _ => Except.error PyExc.typeError

/-- Python data[0]: head of a list (IndexError when empty), first character
of a string, KeyError on a JSON-parsed dict (whose keys are all strings),
TypeError on scalars. -/
def subscriptZero (data : Json) : Except PyExc Json :=
  match data with
  | .arr [] => Except.error PyExc.indexError
  | .arr (x :: _) => Except.ok x
  | .str [] => Except.error PyExc.indexError
  | .str (c :: _) => Except.ok (.str [c])
  | .obj _ => Except.error PyExc.keyError
  | _ => Except.error PyExc.typeError

/-- Python data.get(k, default): dict method, AttributeError on any other
value. -/
def dictGetMethod (data : Json) (k : PyStr) (default : Json) : Except PyExc Json :=
  match data with
  | .obj fs => Except.ok ((jsonGet? fs k).getD default)
  | _ => Except.error PyExc.attributeError

/-- Left-to-right scan of Python s.replace(old, new).  The structural fuel
bounds the number of scan steps; every step consumes at least one
character of s (old is nonempty whenever the first branch fires), so a
fuel of s.length is always enough. -/
def pyReplaceAux (old new : PyStr) : Nat → PyStr → PyStr
  | 0, s => s
  | fuel + 1, s =>
    if startsWithB s old && !old.isEmpty then
      new ++ pyReplaceAux old new fuel (s.drop old.length)
    else
      match s with
      | [] => []
      | c :: rest => c :: pyReplaceAux old new fuel rest

/-- Python s.replace(old, new) for nonempty old: non-overlapping
left-to-right replacement of every occurrence. -/
def pyReplace (s old new : PyStr) : PyStr :=
  pyReplaceAux old new s.length s

def strItems : PyStr := "items".data
def strVolumeInfo : PyStr := "volumeInfo".data
def strImageLinks : PyStr := "imageLinks".data
def strThumbnail : PyStr := "thumbnail".data

/-- Thumbnail clean-up of get_book_cover: force the secure scheme and strip
the edge=curl parameter. -/
def normalizeCoverUrl (s : PyStr) : PyStr :=
  pyReplace (pyReplace s "http://".data "https://".data) "&edge=curl".data []

/-- Outcome of the single outbound request of get_book_cover: either some
requests.RequestException (connection failure, timeout, bad HTTP status
from raise_for_status, or a JSON decode failure from response.json, all in
the RequestException hierarchy), or a successfully parsed JSON value. -/
inductive FetchOutcome where
  | requestFailure
  | parsed (v : Json)

/-- Body of the try block of get_book_cover (src/app.py lines 100-112),
on an already parsed response.  The source subscripts data["items"] twice
(once in the guard, once in the extraction); both are kept. -/
def getBookCoverBody (data : Json) : Except PyExc (Option Json) :=
  match pyContains data strItems with
  | .error e => .error e
  | .ok c =>
    if !c then .ok none
    else
      match subscriptStr data strItems with
      | .error e => .error e
      | .ok items =>
        if !(truthy items) then .ok none
        else
          match subscriptStr data strItems with
          | .error e => .error e
          | .ok items2 =>
            match subscriptZero items2 with
            | .error e => .error e
            | .ok item0 =>
              match subscriptStr item0 strVolumeInfo with
              | .error e => .error e
              | .ok vi =>
                match dictGetMethod vi strImageLinks (Json.obj []) with
                | .error e => .error e
                | .ok il =>
                  match dictGetMethod il strThumbnail Json.null with
                  | .error e => .error e
                  | .ok thumb =>
                    if truthy thumb then
                      match thumb with
                      | Json.str s => .ok (some (Json.str (normalizeCoverUrl s)))
                      | _ => .error PyExc.attributeError
                    else
                      match thumb with
                      | Json.null => .ok none
                      | _ => .ok (some thumb)

/-- get_book_cover (src/app.py lines 94-115): run the body and catch
exactly (requests.RequestException, KeyError, IndexError), returning None;
any other exception propagates to the caller. -/
def getBookCover (o : FetchOutcome) : Except PyExc (Option Json) :=
  match o with
  | .requestFailure => Except.ok none
  | .parsed v =>
    match getBookCoverBody v with
    | Except.ok r => Except.ok r
    | Except.error e =>
      if e = PyExc.requestException ∨ e = PyExc.keyError ∨ e = PyExc.indexError then
        Except.ok none
      else
        Except.error e

/-! Suggestion parsing and the aggregator (check_inventory_with_images). -/

/-- Python s.split(sep) for a one-character separator, keeping empty
pieces. -/
def pySplitChar (sep : Char) (s : PyStr) : List PyStr :=
  s.foldr
    (fun c acc =>
      match acc with
      | [] => [[c]]
      | h :: t => if c == sep then [] :: h :: t else (c :: h) :: t)
    [[]]

/-- Text before the first dash of a line (parts[0] of line.split("-", 1)). -/
def beforeDash (line : PyStr) : PyStr :=
  line.takeWhile (fun c => c != '-')

/-- Text after the first dash of a line (parts[1] of line.split("-", 1)). -/
def afterDash (line : PyStr) : PyStr :=
  (line.dropWhile (fun c => c != '-')).drop 1

/-- The character set string of parts[0].strip("1234567890. "). -/
def stripChars : PyStr := "1234567890. ".data

/-- One line of the parsing loop of check_inventory_with_images (src/app.py
lines 201-211): lines without a dash produce nothing; otherwise the title
is parts[0].strip("1234567890. ").strip() and the author parts[1].strip(),
and the pair is dropped when either is empty. -/
def parseLine (line : PyStr) : Option (PyStr × PyStr) :=
  if line.contains '-' then
    if pyStrip (pyStripSet (beforeDash line) stripChars) = [] ∨
        pyStrip (afterDash line) = [] then none
    else some (pyStrip (pyStripSet (beforeDash line) stripChars), pyStrip (afterDash line))
  else none

/-- The parsed book_tasks list of check_inventory_with_images. -/
def parseSuggestions (suggestions : PyStr) : List (PyStr × PyStr) :=
  (pySplitChar '\n' suggestions).filterMap parseLine

/-- A BookResult record. -/
structure BookRec where
  title : PyStr
  author : PyStr
  availability : PyStr
  cover : Option Json

/-- fetch_single_book_data (src/app.py lines 184-193): resolve with the
default cutoff 0.8, fetch the cover (its network behaviour abstracted as
net), and assemble the record; any exception propagates to the future. -/
def fetchSingleBookData (d : Lookup) (net : PyStr → PyStr → FetchOutcome)
    (title author : PyStr) : Except PyExc BookRec :=
  match findInInventory d title author (mkRat 4 5) with
  | .error e => .error e
  | .ok availability =>
    match getBookCover (net title author) with
    | .error e => .error e
    | .ok cover => .ok ⟨title, author, availability, cover⟩

/-- The record appended when future.result() raises (src/app.py lines
225-233). -/
def errorRecord (title author : PyStr) : BookRec :=
  ⟨title, author, "Error".data, none⟩

/-- Collection step of the as_completed loop: a finished task either
contributes its record or, when it raised, the Error record. -/
def processBook (d : Lookup) (net : PyStr → PyStr → FetchOutcome)
    (ta : PyStr × PyStr) : BookRec :=
  match fetchSingleBookData d net ta.1 ta.2 with
  | .ok r => r
  | .error _ => errorRecord ta.1 ta.2

/-- check_inventory_with_images (src/app.py lines 196-235): the results
list collected over the as_completed iteration.  The completion order of
the futures is nondeterministic, so it is an explicit parameter; theorems
quantify over every order that is a permutation of
parseSuggestions suggestions. -/
def checkInventoryWithImages (d : Lookup) (net : PyStr → PyStr → FetchOutcome)
    (order : List (PyStr × PyStr)) : List BookRec :=
  order.map (processBook d net)

/-! Specification-side definitions, written from the claims' wording, to be
compared with the embedded code. -/

/-- The character set named by the claims: the digits, the dot and the
space. -/
def specStripSet : PyStr := ['0', '1', '2', '3', '4', '5', '6', '7', '8', '9', '.', ' ']

/-- Title formula of claim C9 as stated: the text before the first dash
with all leading and trailing characters from specStripSet removed. -/
def titleSetStripped (line : PyStr) : PyStr :=
  dropTrail (fun c => specStripSet.contains c)
    ((beforeDash line).dropWhile (fun c => specStripSet.contains c))

/-- Title formula of claim C4 as stated: the text before the first dash
with the leading list-numbering characters stripped and whitespace
trimmed. -/
def titleLeadingStripped (line : PyStr) : PyStr :=
  pyStrip ((beforeDash line).dropWhile (fun c => specStripSet.contains c))

/-- Amended parse of one line: on a line containing a dash, the title is
the text before the first dash with leading and trailing characters from
specStripSet removed and then whitespace-trimmed, the author is the
whitespace-trimmed text after the first dash, and the pair is kept only
when both parts are nonempty. -/
def amendedParseLine (line : PyStr) : Option (PyStr × PyStr) :=
  if line.contains '-' then
    if pyStrip (titleSetStripped line) = [] ∨ pyStrip (afterDash line) = [] then none
    else some (pyStrip (titleSetStripped line), pyStrip (afterDash line))
  else none

/-- Expected shape of a thumbnail field: absent, null or a string. -/
def schemaOKThumb : Option Json → Bool
  | none => true
  | some .null => true
  | some (.str _) => true
  | some _ => false

/-- Expected shape of an imageLinks field: absent or an object whose
thumbnail field has the expected shape. -/
def schemaOKImageLinks : Option Json → Bool
  | none => true
  | some (.obj fi) => schemaOKThumb (jsonGet? fi strThumbnail)
  | some _ => false

/-- Expected shape of a volumeInfo field: absent or an object whose
imageLinks field has the expected shape. -/
def schemaOKVolumeInfo : Option Json → Bool
  | none => true
  | some (.obj fv) => schemaOKImageLinks (jsonGet? fv strImageLinks)
  | some _ => false

/-- Expected shape of the first result item: an object whose volumeInfo
field has the expected shape. -/
def schemaOKItem0 : Json → Bool
  | .obj f0 => schemaOKVolumeInfo (jsonGet? f0 strVolumeInfo)
  | _ => false

/-- Expected shape of a present items field: anything falsy, or an array
whose first element has the expected shape. -/
def schemaOKItems (items : Json) : Bool :=
  if !(truthy items) then true
  else
    match items with
    | .arr (item0 :: _) => schemaOKItem0 item0
    | _ => false

/-- Expected shape of a cover-API response, under which get_book_cover is
exception-free: a parsed response is a JSON object whose items field, when
present, has the expected shape. -/
def schemaOK : FetchOutcome → Bool
  | .requestFailure => true
  | .parsed (.obj fields) =>
    match jsonGet? fields strItems with
    | none => true
    | some items => schemaOKItems items
  | .parsed _ => false

/-- Thumbnail URL extracted from a thumbnail field, when it is a string. -/
def thumbUrl? : Option Json → Option PyStr
  | some (.str s) => some s
  | _ => none

/-- Thumbnail URL below an imageLinks field. -/
def imageLinksThumb? : Option Json → Option PyStr
  | some (.obj fi) => thumbUrl? (jsonGet? fi strThumbnail)
  | _ => none

/-- Thumbnail URL below a volumeInfo field. -/
def volumeInfoThumb? : Option Json → Option PyStr
  | some (.obj fv) => imageLinksThumb? (jsonGet? fv strImageLinks)
  | _ => none

/-- The first item's thumbnail URL of a parsed response, when present. -/
def extractThumbnail (data : Json) : Option PyStr :=
  match data with
  | .obj fields =>
    match jsonGet? fields strItems with
    | some (.arr (.obj f0 :: _)) => volumeInfoThumb? (jsonGet? f0 strVolumeInfo)
    | _ => none
  | _ => none

/-- Cover result as the specification words it: absent on a request
failure or when no thumbnail URL is present, otherwise the thumbnail with
the secure scheme forced and the edge=curl parameter stripped. -/
def specCoverResult : FetchOutcome → Option Json
  | .requestFailure => none
  | .parsed data =>
    match extractThumbnail data with
    | some s => some (Json.str (normalizeCoverUrl s))
    | none => none

/-! Concrete sample data used by the witnesses. -/

/-- A one-entry catalog. -/
def sampleInventory : List CatalogEntry :=
  [⟨"Dune".data, "Frank Herbert".data, "yes".data⟩]

/-- Its index. -/
def sampleLookup : Lookup :=
  buildInventoryLookup sampleInventory

/-- A network behaviour whose response is valid JSON of an unexpected
shape: a top-level array containing the string items. -/
def netArrayResponse : PyStr → PyStr → FetchOutcome :=
  fun _ _ => FetchOutcome.parsed (Json.arr [Json.str strItems])

/-- A well-shaped cover response carrying an insecure thumbnail URL with
the edge=curl parameter. -/
def sampleResponse : Json :=
  Json.obj [(strItems, Json.arr [Json.obj [(strVolumeInfo,
    Json.obj [(strImageLinks, Json.obj [(strThumbnail,
      Json.str "http://books.example/front?zoom=2&edge=curl".data)])])]])]

/-- The sample response as a fetch outcome. -/
def sampleOutcome : FetchOutcome :=
  FetchOutcome.parsed sampleResponse

/-- The parsing example named by the claims. -/
def sampleSuggestions : PyStr :=
  "1. Dune - Frank Herbert\n2. \n3. Foundation - Isaac Asimov".data

/-! Helper lemmas (shared across the claim theorems). -/

theorem pickBestFold_from_some (w : PyStr) (l : List PyStr) :
    ∀ m : PyStr, ∃ r, pickBestFold w (some m) l = some r ∧ (r = m ∨ r ∈ l) := by
  induction l with
  | nil => exact fun m => ⟨m, rfl, Or.inl rfl⟩
  | cons x xs ih =>
    intro m
    show ∃ r, (x :: xs).foldl (pickStep w) (some m) = some r ∧ _
    rw [List.foldl_cons]
    by_cases hb : scoreBetter w x m = true
    · rcases ih x with ⟨r, hr, hmem⟩
      refine ⟨r, ?_, Or.inr ?_⟩
      · simpa [pickStep, hb] using hr
      · rcases hmem with h | h
        · exact h ▸ List.mem_cons_self x xs
        · exact List.mem_cons_of_mem x h
    · rcases ih m with ⟨r, hr, hmem⟩
      refine ⟨r, ?_, ?_⟩
      · simpa [pickStep, hb] using hr
      · rcases hmem with h | h
        · exact Or.inl h
        · exact Or.inr (List.mem_cons_of_mem x h)

theorem pickBestFold_of_ne_nil (w : PyStr) (l : List PyStr) (h : l ≠ []) :
    ∃ r, pickBestFold w none l = some r ∧ r ∈ l := by
  match l, h with
  | x :: xs, _ =>
    rcases pickBestFold_from_some w xs x with ⟨r, hr, hmem⟩
    refine ⟨r, ?_, ?_⟩
    · show (x :: xs).foldl (pickStep w) none = some r
      rw [List.foldl_cons]
      exact hr
    · rcases hmem with h | h
      · exact h ▸ List.mem_cons_self x xs
      · exact List.mem_cons_of_mem x h

theorem mem_candFilter {w x : PyStr} {poss : List PyStr} {cutoff : ℚ} :
    x ∈ candFilter w poss cutoff ↔ x ∈ poss ∧ cutoff ≤ scoreOf w x := by
  simp [candFilter, List.mem_filter]

theorem candFilter_eq_nil {w : PyStr} {poss : List PyStr} {cutoff : ℚ}
    (h : ∀ t ∈ poss, scoreOf w t < cutoff) : candFilter w poss cutoff = [] := by
  apply List.filter_eq_nil_iff.mpr
  intro a ha
  simpa using not_le.mpr (h a ha)

theorem dictGet?_mem {d : Lookup} {k : PyStr × PyStr} {v : PyStr}
    (h : dictGet? d k = some v) : v ∈ d.map (fun p => p.2) := by
  unfold dictGet? at h
  cases hf : d.find? (fun p => p.1 == k) with
  | none => rw [hf] at h; cases h
  | some p =>
    rw [hf] at h
    cases h
    exact List.mem_map.mpr ⟨p, List.mem_of_find?_eq_some hf, rfl⟩

theorem find?_title_of_mem {d : Lookup} {best : PyStr}
    (h : best ∈ allTitles d) :
    ∃ entry, d.find? (fun p => p.1.1 == best) = some entry := by
  rcases List.mem_map.mp h with ⟨p, hp, hpe⟩
  cases hf : d.find? (fun p => p.1.1 == best) with
  | some entry => exact ⟨entry, rfl⟩
  | none =>
    exfalso
    have := List.find?_eq_none.mp hf p hp
    simp [hpe] at this

theorem mem_dictInsert {d : Lookup} {k : PyStr × PyStr} {v : PyStr}
    {p : (PyStr × PyStr) × PyStr} (hp : p ∈ dictInsert d k v) :
    p = (k, v) ∨ p ∈ d := by
  unfold dictInsert at hp
  split at hp
  · rcases List.mem_map.mp hp with ⟨q, hq, hqe⟩
    by_cases hk : (q.1 == k) = true
    · left; rw [← hqe]; simp [hk]
    · right
      have : (if (q.1 == k) = true then (k, v) else q) = q := by simp [hk]
      rw [this] at hqe
      exact hqe ▸ hq
  · rcases List.mem_append.mp hp with h | h
    · exact Or.inr h
    · left; simpa using h

theorem buildInventoryLookup_mem_aux :
    ∀ (l : List CatalogEntry) (acc : Lookup) (p : (PyStr × PyStr) × PyStr),
      p ∈ l.foldl
        (fun d book =>
          dictInsert d (normalize book.title, normalize book.author) book.available) acc →
      p ∈ acc ∨ ∃ e ∈ l, p = ((normalize e.title, normalize e.author), e.available) := by
  intro l
  induction l with
  | nil => exact fun acc p hp => Or.inl hp
  | cons b bs ih =>
    intro acc p hp
    rw [List.foldl_cons] at hp
    rcases ih _ p hp with h | ⟨e, he, hpe⟩
    · rcases mem_dictInsert h with h | h
      · exact Or.inr ⟨b, List.mem_cons_self b bs, h⟩
      · exact Or.inl h
    · exact Or.inr ⟨e, List.mem_cons_of_mem b he, hpe⟩

theorem any_eq_isSome (fs : List (PyStr × Json)) (k : PyStr) :
    fs.any (fun p => p.1 == k) = (jsonGet? fs k).isSome := by
  induction fs with
  | nil => rfl
  | cons f fs ih =>
    by_cases hk : (f.1 == k) = true
    · simp [jsonGet?, List.find?, hk]
    · simp only [List.any_cons, hk, Bool.false_or]
      rw [ih]
      simp [jsonGet?, List.find?, hk]

theorem contains_eq_of_perm {l₁ l₂ : List Char} (h : l₁.Perm l₂) (c : Char) :
    l₁.contains c = l₂.contains c := by
  show l₁.elem c = l₂.elem c
  simp only [List.elem_eq_mem]
  exact decide_eq_decide.mpr h.mem_iff

theorem stripCharsFun_eq :
    (fun c => stripChars.contains c) = (fun c => specStripSet.contains c) :=
  funext (contains_eq_of_perm (by decide))

theorem parseLine_eq_amended (line : PyStr) : parseLine line = amendedParseLine line := by
  unfold parseLine amendedParseLine pyStripSet titleSetStripped
  rw [stripCharsFun_eq]

theorem findInInventory_fuzzy (d : Lookup) (title author : PyStr) (cutoff : ℚ)
    (hex : dictGet? d (normalize title, normalize author) = none)
    (hc : 0 ≤ cutoff ∧ cutoff ≤ 1) :
    findInInventory d title author cutoff =
      match pickBestFold (normalize title) none
          (candFilter (normalize title) (allTitles d) cutoff) with
      | none => Except.ok notInInventory
      | some best =>
        match d.find? (fun p => p.1.1 == best) with
        | some p => Except.ok p.2
        | none => Except.ok notInInventory := by
  unfold findInInventory getCloseMatches1
  rw [hex, if_pos hc]
  cases pickBestFold (normalize title) none
      (candFilter (normalize title) (allTitles d) cutoff) with
  | none => rfl
  | some best => rfl

/-! Claim theorems. -/

/-- C1: for every catalog index and every title/author pair whose
normalised form is a key of the index, resolve returns exactly that
entry's availability, for any cutoff, without reaching the fuzzy-matching
step. -/
theorem resolve_exact_match (d : Lookup) (title author : PyStr) (cutoff : ℚ)
    (avail : PyStr)
    (h : dictGet? d (normalize title, normalize author) = some avail) :
    findInInventory d title author cutoff = Except.ok avail := by
  unfold findInInventory
  rw [h]

theorem resolve_exact_match_witness :
    findInInventory sampleLookup "Dune".data "Frank Herbert".data (mkRat 4 5) =
      Except.ok "yes".data :=
  resolve_exact_match sampleLookup "Dune".data "Frank Herbert".data (mkRat 4 5)
    "yes".data (by decide)

/-- C3: with a valid cutoff, when the query has no exact index match and
no index title reaches the cutoff similarity, resolve returns the sentinel
Not in Inventory. -/
theorem resolve_no_match_sentinel (d : Lookup) (title author : PyStr) (cutoff : ℚ)
    (h0 : 0 ≤ cutoff) (h1 : cutoff ≤ 1)
    (hex : dictGet? d (normalize title, normalize author) = none)
    (hfar : ∀ t ∈ allTitles d, scoreOf (normalize title) t < cutoff) :
    findInInventory d title author cutoff = Except.ok notInInventory := by
  rw [findInInventory_fuzzy d title author cutoff hex ⟨h0, h1⟩, candFilter_eq_nil hfar]
  rfl

theorem resolve_no_match_sentinel_witness :
    dictGet? sampleLookup (normalize "Xyzzy".data, normalize "Nobody".data) = none ∧
    (∀ t ∈ allTitles sampleLookup, scoreOf (normalize "Xyzzy".data) t < mkRat 4 5) ∧
    findInInventory sampleLookup "Xyzzy".data "Nobody".data (mkRat 4 5) =
      Except.ok notInInventory :=
  ⟨by decide, by decide,
    resolve_no_match_sentinel sampleLookup "Xyzzy".data "Nobody".data (mkRat 4 5)
      (by decide) (by decide) (by decide) (by decide)⟩

/-- C2: with a valid cutoff and no exact index match, when some index
title reaches the cutoff similarity against the normalised query title,
resolve returns the availability of the first index entry carrying the
best-matching title, for every author argument (the author is not used
once the fuzzy title match succeeds). -/
theorem resolve_fuzzy_best_title (d : Lookup) (title : PyStr) (cutoff : ℚ)
    (h0 : 0 ≤ cutoff) (h1 : cutoff ≤ 1)
    (hnear : ∃ t ∈ allTitles d, cutoff ≤ scoreOf (normalize title) t) :
    ∃ best entry,
      pickBestFold (normalize title) none
        (candFilter (normalize title) (allTitles d) cutoff) = some best ∧
      best ∈ allTitles d ∧ cutoff ≤ scoreOf (normalize title) best ∧
      d.find? (fun p => p.1.1 == best) = some entry ∧
      ∀ author, dictGet? d (normalize title, normalize author) = none →
        findInInventory d title author cutoff = Except.ok entry.2 := by
  rcases hnear with ⟨t, ht, hsc⟩
  have htc : t ∈ candFilter (normalize title) (allTitles d) cutoff :=
    mem_candFilter.mpr ⟨ht, hsc⟩
  have hne : candFilter (normalize title) (allTitles d) cutoff ≠ [] := by
    intro hnil
    rw [hnil] at htc
    cases htc
  rcases pickBestFold_of_ne_nil (normalize title) _ hne with ⟨best, hpick, hbestc⟩
  rcases mem_candFilter.mp hbestc with ⟨hbestT, hbestS⟩
  rcases find?_title_of_mem hbestT with ⟨entry, hfind⟩
  refine ⟨best, entry, hpick, hbestT, hbestS, hfind, ?_⟩
  intro author hex
  rw [findInInventory_fuzzy d title author cutoff hex ⟨h0, h1⟩, hpick]
  simp [hfind]

theorem resolve_fuzzy_best_title_witness :
    (∃ t ∈ allTitles sampleLookup, mkRat 4 5 ≤ scoreOf (normalize "Dunes".data) t) ∧
    ∃ best entry,
      pickBestFold (normalize "Dunes".data) none
        (candFilter (normalize "Dunes".data) (allTitles sampleLookup) (mkRat 4 5)) =
          some best ∧
      best ∈ allTitles sampleLookup ∧
      mkRat 4 5 ≤ scoreOf (normalize "Dunes".data) best ∧
      sampleLookup.find? (fun p => p.1.1 == best) = some entry ∧
      ∀ author, dictGet? sampleLookup (normalize "Dunes".data, normalize author) = none →
        findInInventory sampleLookup "Dunes".data author (mkRat 4 5) = Except.ok entry.2 :=
  ⟨⟨"dune".data, by decide, by decide⟩,
    resolve_fuzzy_best_title sampleLookup "Dunes".data (mkRat 4 5)
      (by decide) (by decide) ⟨"dune".data, by decide, by decide⟩⟩

/-- C7 counterexample: with cutoff 2, outside the unit interval, a query
that exact-matches the index returns its availability instead of raising
InvalidArgument, because the cutoff is only validated inside the fuzzy
step, which an exact match never reaches. -/
theorem resolve_invalid_cutoff_no_raise :
    findInInventory sampleLookup "Dune".data "Frank Herbert".data 2 =
      Except.ok "yes".data ∧
    ¬(0 ≤ (2 : ℚ) ∧ (2 : ℚ) ≤ 1) :=
  ⟨by rfl, by norm_num⟩

/-- C7 amended: resolve fails exactly when the cutoff is outside the unit
interval AND the normalised pair has no exact index match; in particular
with a cutoff in the unit interval it never fails. -/
theorem resolve_error_iff (d : Lookup) (title author : PyStr) (cutoff : ℚ) :
    (∃ e, findInInventory d title author cutoff = Except.error e) ↔
    dictGet? d (normalize title, normalize author) = none ∧
      ¬(0 ≤ cutoff ∧ cutoff ≤ 1) := by
  cases hex : dictGet? d (normalize title, normalize author) with
  | some avail =>
    unfold findInInventory
    simp [hex]
  | none =>
    by_cases hc : 0 ≤ cutoff ∧ cutoff ≤ 1
    · rw [findInInventory_fuzzy d title author cutoff hex hc]
      cases hpick : pickBestFold (normalize title) none
          (candFilter (normalize title) (allTitles d) cutoff) with
      | none => simp [hc]
      | some best =>
        cases hfind : d.find? (fun p => p.1.1 == best) with
        | none => simp [hc, hfind]
        | some entry => simp [hc, hfind]
    · unfold findInInventory getCloseMatches1
      rw [hex, if_neg hc]
      simp [hc]

/-- C10: with a valid cutoff, resolve always succeeds, and the returned
string is either the sentinel Not in Inventory or an availability value
stored in the index. -/
theorem resolve_value_from_catalog (d : Lookup) (title author : PyStr) (cutoff : ℚ)
    (h0 : 0 ≤ cutoff) (h1 : cutoff ≤ 1) :
    ∃ v, findInInventory d title author cutoff = Except.ok v ∧
      (v = notInInventory ∨ v ∈ d.map (fun p => p.2)) := by
  cases hex : dictGet? d (normalize title, normalize author) with
  | some avail =>
    refine ⟨avail, ?_, Or.inr (dictGet?_mem hex)⟩
    unfold findInInventory
    rw [hex]
  | none =>
    rw [findInInventory_fuzzy d title author cutoff hex ⟨h0, h1⟩]
    cases hpick : pickBestFold (normalize title) none
        (candFilter (normalize title) (allTitles d) cutoff) with
    | none => exact ⟨notInInventory, rfl, Or.inl rfl⟩
    | some best =>
      cases hfind : d.find? (fun p => p.1.1 == best) with
      | none =>
        refine ⟨notInInventory, ?_, Or.inl rfl⟩
        simp [hfind]
      | some entry =>
        refine ⟨entry.2, ?_,
          Or.inr (List.mem_map.mpr ⟨entry, List.mem_of_find?_eq_some hfind, rfl⟩)⟩
        simp [hfind]

theorem resolve_value_from_catalog_witness :
    (0 : ℚ) ≤ mkRat 4 5 ∧ mkRat 4 5 ≤ 1 ∧
    ∃ v, findInInventory sampleLookup "Foundation".data "Isaac Asimov".data (mkRat 4 5) =
        Except.ok v ∧
      (v = notInInventory ∨ v ∈ sampleLookup.map (fun p => p.2)) :=
  ⟨by decide, by decide,
    resolve_value_from_catalog sampleLookup "Foundation".data "Isaac Asimov".data
      (mkRat 4 5) (by decide) (by decide)⟩

/-- C8: the catalog index is a pure, deterministic derived view of the
catalog: two builds from the same parsed catalog content are identical,
and every index entry corresponds to some catalog entry (normalised key
and availability value). -/
theorem index_rebuild_deterministic (inv₁ inv₂ : List CatalogEntry)
    (h : inv₁ = inv₂) :
    buildInventoryLookup inv₁ = buildInventoryLookup inv₂ ∧
    ∀ p ∈ buildInventoryLookup inv₁, ∃ e ∈ inv₁,
      p.1 = (normalize e.title, normalize e.author) ∧ p.2 = e.available := by
  refine ⟨by rw [h], ?_⟩
  intro p hp
  rcases buildInventoryLookup_mem_aux inv₁ [] p hp with h0 | ⟨e, he, hpe⟩
  · cases h0
  · exact ⟨e, he, by rw [hpe], by rw [hpe]⟩

theorem index_rebuild_deterministic_witness :
    buildInventoryLookup sampleInventory = buildInventoryLookup sampleInventory :=
  (index_rebuild_deterministic sampleInventory sampleInventory rfl).1

/-- C4 counterexample: on the line 1. Fahrenheit 451 - Ray Bradbury, the
code parses the title Fahrenheit, not the leading-numbering-stripped and
whitespace-trimmed text Fahrenheit 451 the claim describes: the strip also
removes the title's trailing digits. -/
theorem parse_leading_strip_refuted :
    parseLine "1. Fahrenheit 451 - Ray Bradbury".data =
      some ("Fahrenheit".data, "Ray Bradbury".data) ∧
    titleLeadingStripped "1. Fahrenheit 451 - Ray Bradbury".data =
      "Fahrenheit 451".data ∧
    ("Fahrenheit".data : PyStr) ≠ "Fahrenheit 451".data :=
  ⟨by decide, by decide, by decide⟩

/-- C4 amended: parsing yields one pair per line containing a dash whose
parts survive: the title is the text before the first dash with leading
AND trailing characters from the digits-dot-space set removed and then
whitespace-trimmed, the author is the trimmed text after the first dash,
and lines where either part is empty are discarded; the example raw text
parses to exactly 2 books. -/
theorem parse_amended :
    (∀ suggestions, parseSuggestions suggestions =
      (pySplitChar '\n' suggestions).filterMap amendedParseLine) ∧
    (parseSuggestions sampleSuggestions).length = 2 := by
  constructor
  · intro s
    unfold parseSuggestions
    rw [funext parseLine_eq_amended]
  · decide

/-- C9 counterexample: on a line whose pre-dash text carries a tab, the
parsed title is not the set-stripped text alone: the source applies a
final whitespace strip as well, which the claim's formula omits. -/
theorem parse_set_strip_refuted :
    parseLine "1.\tDune - Frank Herbert".data =
      some ("Dune".data, "Frank Herbert".data) ∧
    titleSetStripped "1.\tDune - Frank Herbert".data = '\t' :: "Dune".data ∧
    ("Dune".data : PyStr) ≠ '\t' :: "Dune".data :=
  ⟨by decide, by decide, by decide⟩

/-- C9 amended: for every line that parses, the title is the text before
the first dash with all leading and trailing characters from the
digits-dot-space set removed and then whitespace-trimmed (and the author
the trimmed text after the dash); consequently the trailing digits of
Fahrenheit 451 are stripped and its parsed title is Fahrenheit. -/
theorem parse_title_both_ends :
    (∀ line t a, parseLine line = some (t, a) →
      t = pyStrip (titleSetStripped line) ∧ a = pyStrip (afterDash line)) ∧
    parseLine "1. Fahrenheit 451 - Ray Bradbury".data =
      some ("Fahrenheit".data, "Ray Bradbury".data) := by
  constructor
  · intro line t a h
    rw [parseLine_eq_amended] at h
    unfold amendedParseLine at h
    split at h
    · split at h
      · cases h
      · rw [Option.some_inj, Prod.mk.injEq] at h
        exact ⟨h.1.symm, h.2.symm⟩
    · cases h
  · decide

theorem parse_title_both_ends_witness :
    pyStrip (titleSetStripped "1.\tDune - Frank Herbert".data) = "Dune".data ∧
    pyStrip (afterDash "1.\tDune - Frank Herbert".data) = "Frank Herbert".data := by
  have h := parse_title_both_ends.1 "1.\tDune - Frank Herbert".data
    "Dune".data "Frank Herbert".data (by decide)
  exact ⟨h.1.symm, h.2.symm⟩

/-- C5: for every raw text parsing into N pairs and every completion order
of the per-book tasks, the aggregator returns exactly N records; a book
whose task raised contributes the Error record with absent cover, and
every other book's record is exactly its own task's result, unaffected by
the failure. -/
theorem aggregator_failure_isolation (d : Lookup) (net : PyStr → PyStr → FetchOutcome)
    (suggestions : PyStr) (order : List (PyStr × PyStr))
    (hperm : order.Perm (parseSuggestions suggestions)) :
    (checkInventoryWithImages d net order).length =
      (parseSuggestions suggestions).length ∧
    ∀ (i : Nat) (t a : PyStr), order[i]? = some (t, a) →
      (∀ e, fetchSingleBookData d net t a = Except.error e →
        (checkInventoryWithImages d net order)[i]? = some (errorRecord t a)) ∧
      ∀ r, fetchSingleBookData d net t a = Except.ok r →
        (checkInventoryWithImages d net order)[i]? = some r := by
  constructor
  · unfold checkInventoryWithImages
    rw [List.length_map]
    exact hperm.length_eq
  · intro i t a hi
    constructor
    · intro e he
      unfold checkInventoryWithImages
      rw [List.getElem?_map, hi]
      simp [processBook, he]
    · intro r hr
      unfold checkInventoryWithImages
      rw [List.getElem?_map, hi]
      simp [processBook, hr]

theorem aggregator_failure_isolation_witness :
    (checkInventoryWithImages sampleLookup netArrayResponse
      (parseSuggestions "1. Dune - Frank Herbert".data))[0]? =
      some (errorRecord "Dune".data "Frank Herbert".data) :=
  ((aggregator_failure_isolation sampleLookup netArrayResponse
      "1. Dune - Frank Herbert".data
      (parseSuggestions "1. Dune - Frank Herbert".data)
      (List.Perm.refl _)).2 0 "Dune".data "Frank Herbert".data (by rfl)).1
    PyExc.typeError (by rfl)

/-- C6 counterexample: a syntactically valid JSON response that is a
top-level array containing the string items makes get_book_cover raise an
uncaught TypeError (the membership test succeeds on the array, and the
subsequent string subscript of a list is a TypeError, which is not in the
caught exception tuple), so the fetch does raise to its caller. -/
theorem cover_raises_on_array_json :
    getBookCover (FetchOutcome.parsed (Json.arr [Json.str strItems])) =
      Except.error PyExc.typeError :=
  rfl

/-- C6 amended: for every request failure and every parsed response of the
expected shape, get_book_cover returns without raising: absent on HTTP
error, timeout, malformed JSON, or a missing thumbnail, and on success the
thumbnail URL with the https scheme forced and the edge=curl parameter
stripped; responses of unexpected JSON shape are not covered and can
raise. -/
theorem cover_schema_behavior (o : FetchOutcome) (h : schemaOK o = true) :
    getBookCover o = Except.ok (specCoverResult o) := by
  cases o with
  | requestFailure => rfl
  | parsed data =>
    cases data with
    | null => simp [schemaOK] at h
    | bool b => simp [schemaOK] at h
    | num n => simp [schemaOK] at h
    | str s => simp [schemaOK] at h
    | arr xs => simp [schemaOK] at h
    | obj fields =>
      simp only [schemaOK] at h
      cases hj : jsonGet? fields strItems with
      | none =>
        simp only [getBookCover, getBookCoverBody, pyContains, any_eq_isSome, hj,
          Option.isSome_none, Bool.not_false, if_true, specCoverResult,
          extractThumbnail]
      | some items =>
        rw [hj] at h
        simp only [schemaOKItems] at h
        by_cases ht : truthy items = true
        · rw [ht] at h
          simp only [Bool.not_true, Bool.false_eq_true, if_false] at h
          cases items with
          | null => simp [truthy] at ht
          | bool b => simp at h
          | num n => simp at h
          | str s => simp at h
          | obj fs => simp at h
          | arr xs =>
            cases xs with
            | nil => simp [truthy] at ht
            | cons item0 rest =>
              cases item0 with
              | null => simp [schemaOKItem0] at h
              | bool b => simp [schemaOKItem0] at h
              | num n => simp [schemaOKItem0] at h
              | str s => simp [schemaOKItem0] at h
              | arr ys => simp [schemaOKItem0] at h
              | obj f0 =>
                simp only [schemaOKItem0] at h
                simp only [getBookCover, getBookCoverBody, pyContains, any_eq_isSome,
                  hj, Option.isSome_some, Bool.not_true, Bool.false_eq_true, if_false,
                  subscriptStr, subscriptZero, ht, Bool.not_false, if_true,
                  specCoverResult, extractThumbnail]
                cases hv : jsonGet? f0 strVolumeInfo with
                | none =>
                  simp only [hv, volumeInfoThumb?]
                  rfl
                | some vi =>
                  rw [hv] at h
                  cases vi with
                  | null => simp [schemaOKVolumeInfo] at h
                  | bool b => simp [schemaOKVolumeInfo] at h
                  | num n => simp [schemaOKVolumeInfo] at h
                  | str s => simp [schemaOKVolumeInfo] at h
                  | arr ys => simp [schemaOKVolumeInfo] at h
                  | obj fv =>
                    simp only [schemaOKVolumeInfo] at h
                    simp only [hv, volumeInfoThumb?, dictGetMethod]
                    cases hil : jsonGet? fv strImageLinks with
                    | none =>
                      simp only [hil, imageLinksThumb?, Option.getD_none]
                      simp [dictGetMethod, jsonGet?, truthy]
                    | some il =>
                      rw [hil] at h
                      cases il with
                      | null => simp [schemaOKImageLinks] at h
                      | bool b => simp [schemaOKImageLinks] at h
                      | num n => simp [schemaOKImageLinks] at h
                      | str s => simp [schemaOKImageLinks] at h
                      | arr ys => simp [schemaOKImageLinks] at h
                      | obj fi =>
                        simp only [schemaOKImageLinks] at h
                        simp only [hil, imageLinksThumb?, Option.getD_some,
                          dictGetMethod]
                        cases hth : jsonGet? fi strThumbnail with
                        | none =>
                          simp only [hth, thumbUrl?, Option.getD_none]
                          simp [truthy]
                        | some th =>
                          rw [hth] at h
                          cases th with
                          | bool b => simp [schemaOKThumb] at h
                          | num n => simp [schemaOKThumb] at h
                          | arr ys => simp [schemaOKThumb] at h
                          | obj g => simp [schemaOKThumb] at h
                          | null =>
                            simp only [hth, thumbUrl?, Option.getD_some]
                            simp [truthy]
                          | str s =>
                            simp only [hth, thumbUrl?, Option.getD_some]
                            cases s with
                            | nil =>
                              simp [truthy, normalizeCoverUrl, pyReplace, pyReplaceAux]
                            | cons c cs => simp [truthy]
        · have htf : truthy items = false := by
            cases hb : truthy items
            · rfl
            · exact absurd hb ht
          simp only [getBookCover, getBookCoverBody, pyContains, any_eq_isSome,
            hj, Option.isSome_some, Bool.not_true, Bool.false_eq_true, if_false,
            subscriptStr, htf, Bool.not_false, if_true, specCoverResult,
            extractThumbnail]
          cases items with
          | null => rfl
          | bool b => rfl
          | num n => rfl
          | str s => rfl
          | obj fs => rfl
          | arr xs =>
            cases xs with
            | nil => rfl
            | cons x rest => simp [truthy] at htf

theorem cover_schema_behavior_witness :
    schemaOK sampleOutcome = true ∧
    getBookCover sampleOutcome = Except.ok (specCoverResult sampleOutcome) ∧
    specCoverResult sampleOutcome =
      some (Json.str "https://books.example/front?zoom=2".data) :=
  ⟨by rfl, cover_schema_behavior sampleOutcome (by rfl), by rfl⟩

end BookApp
